import Mathlib

/-!
Shallow embedding of the NX-OS gRPC wrapper client (nxos_grpc/client.py).

Strings are modelled as Lean `String`; where character-level reasoning is
needed the code works on `List Char` (the `data` of a `String`).  Python
exceptions (`ValueError`) are modelled with `Except String`.  The generated
gRPC stub, channels, and the response builder live outside this module in the
original project and are modelled as opaque-free inductive values or as
function parameters, as noted at each definition.
-/

namespace NxosGrpc

/-- ASCII uppercase or lowercase letter, as used by the scheme check of
urllib URL splitting. -/
def isAsciiAlpha (c : Char) : Bool :=
  (65 ≤ c.toNat && c.toNat ≤ 90) || (97 ≤ c.toNat && c.toNat ≤ 122)

/-- ASCII decimal digit. -/
def isAsciiDigit (c : Char) : Bool :=
  48 ≤ c.toNat && c.toNat ≤ 57

/-- ASCII lowering of a character: models the effect of str.lower on the
ASCII range (characters outside A-Z are returned unchanged; the inputs dealt
with here are ASCII). -/
def pyToLower (c : Char) : Char :=
  if 65 ≤ c.toNat ∧ c.toNat ≤ 90 then Char.ofNat (c.toNat + 32) else c

/-- Model of Python str.split with a one-character separator: returns the
(always non-empty) list of chunks between separator occurrences, keeping
empty chunks, e.g. splitting "a//b" on the slash gives ["a", "", "b"] and
splitting "" gives [""]. -/
def splitOnChar (sep : Char) : List Char → List (List Char)
  | [] => [[]]
  | c :: rest =>
    let r := splitOnChar sep rest
    if c == sep then [] :: r
    else
      match r with
      | [] => [[c]]
      | g :: gs => (c :: g) :: gs

/-- str.split on a String, via `splitOnChar`. -/
def pySplit (s : String) (sep : Char) : List String :=
  (splitOnChar sep s.data).map (fun l => String.mk l)

/-- Model of str.join with a fixed separator (Python sep.join(xs)). -/
def joinSep (sep : String) : List String → String
  | [] => ""
  | [x] => x
  | x :: y :: rest => x ++ sep ++ joinSep sep (y :: rest)

/-- Does the list start with the given pattern (Python str.startswith on the
character level)? -/
def startsWithL : List Char → List Char → Bool
  | _, [] => true
  | [], _ :: _ => false
  | a :: as, b :: bs => a == b && startsWithL as bs

/-- Substring containment (Python `pat in s`). -/
def containsL : List Char → List Char → Bool
  | [], pat => startsWithL [] pat
  | hay@(_ :: rest), pat => startsWithL hay pat || containsL rest pat

end NxosGrpc

namespace NxosGrpc

/-! ### JSON values and Python dict semantics

`json.dumps` input values occurring in the client are dicts with string keys
whose values are dicts or strings.  Python dicts preserve insertion order;
assigning to an existing key replaces the value in place, assigning a fresh
key appends it.  `JObj` is an insertion-ordered key/value sequence. -/

mutual

inductive JValue where
  | str : String → JValue
  | obj : JObj → JValue

inductive JObj where
  | nil : JObj
  | cons : String → JValue → JObj → JObj

end

/-- Python dict assignment d[k] = v: replace in place if the key is present,
otherwise append at the end. -/
def JObj.setKey : JObj → String → JValue → JObj
  | .nil, k, v => .cons k v .nil
  | .cons k' v' rest, k, v =>
    if k' = k then .cons k' v rest else .cons k' v' (rest.setKey k v)

/-- One character of json.dumps string escaping with ensure_ascii (the
default): double quote, backslash and the C0 control shorthands get
two-character escapes, any other character outside 0x20..0x7e becomes a
uXXXX escape (as a surrogate pair above 0xffff), and printable ASCII is kept. -/
def jsonEscCharL (c : Char) : List Char :=
  if c = '"' then ['\\', '"']
  else if c = '\\' then ['\\', '\\']
  else if c = '\n' then ['\\', 'n']
  else if c = '\r' then ['\\', 'r']
  else if c = '\t' then ['\\', 't']
  else if c = '\x08' then ['\\', 'b']
  else if c = '\x0c' then ['\\', 'f']
  else if c.toNat < 32 || 126 < c.toNat then
    if c.toNat ≤ 65535 then '\\' :: 'u' :: hex4L c.toNat
    else
      ('\\' :: 'u' :: hex4L (55296 + (c.toNat - 65536) / 1024)) ++
        ('\\' :: 'u' :: hex4L (56320 + (c.toNat - 65536) % 1024))
  else [c]
where
  hexDigitL (n : Nat) : Char := if n < 10 then Char.ofNat (48 + n) else Char.ofNat (87 + n)
  hex4L (n : Nat) : List Char :=
    [hexDigitL (n / 4096 % 16), hexDigitL (n / 256 % 16), hexDigitL (n / 16 % 16), hexDigitL (n % 16)]

/-- json.dumps rendering of a string (quotes plus escaping). -/
def jsonEscString (s : String) : String :=
  "\"" ++ String.mk ((s.data.map jsonEscCharL).flatten) ++ "\""

mutual

/-- json.dumps with the default separators: objects print as
\x7bk: v, k: v\x7d and strings with ensure_ascii escaping. -/
def pyJsonDumpsV : JValue → String
  | .str s => jsonEscString s
  | .obj o => "\x7b" ++ pyJsonDumpsMembers o ++ "\x7d"

/-- Members of an object, separated by a comma and a space, with a colon and
a space between key and value (the json.dumps defaults). -/
def pyJsonDumpsMembers : JObj → String
  | .nil => ""
  | .cons k v rest =>
    jsonEscString k ++ ": " ++ pyJsonDumpsV v ++
      (match rest with
       | .nil => ""
       | .cons _ _ _ => ", ") ++ pyJsonDumpsMembers rest

end

/-! ### PathCompiler: Client.__parse_xpath_to_json -/

/-- The loop of __parse_xpath_to_json.  It receives the reversed element
list; on the first iteration it assigns an empty object under the element in
the current dict, afterwards each element wraps the dict built so far as the
sole value of a fresh single-key dict. -/
def xpathRevFold : List String → JObj → Bool → JObj
  | [], d, _ => d
  | e :: rest, d, first =>
    if first then xpathRevFold rest (d.setKey e (.obj .nil)) false
    else xpathRevFold rest (JObj.cons e (.obj d) .nil) false

/-- __parse_xpath_to_json up to (but not including) json.dumps: rejects an
empty namespace (Python falsy check covering both None and the empty
string), splits the xpath on the slash, folds the elements in reverse and
then assigns the namespace under the top-level key "namespace". -/
def parseXPathToJsonObj (xpath ns : String) : Except String JObj :=
  if ns = "" then .error "Must include namespace if constructing from xpath!"
  else
    let elems := pySplit xpath '/'
    let d := xpathRevFold elems.reverse JObj.nil true
    .ok (d.setKey "namespace" (.str ns))

/-- Client.__parse_xpath_to_json: the dict described above, serialized with
json.dumps. -/
def parseXPathToJson (xpath ns : String) : Except String String :=
  (parseXPathToJsonObj xpath ns).map (fun d => pyJsonDumpsV (.obj d))

/-- Forward nesting of a chain of container names around an innermost
object: nestChain [a, b] d is the dict \x7ba: \x7bb: d\x7d\x7d.  Stated by the spec as
the shape of the compiled path; related to `xpathRevFold` by theorem. -/
def nestChain : List String → JObj → JObj
  | [], d => d
  | e :: rest, d => JObj.cons e (.obj (nestChain rest d)) .nil

/-- Modelled from the spec: the spec describes the fold as acting on the
innermost (last) NON-empty element, so trailing empty elements of the split
(as produced by a trailing slash) play no role; this definition drops them
before nesting.  Everything else follows `parseXPathToJson`. -/
def specParseXPathToJson (xpath ns : String) : Except String String :=
  if ns = "" then .error "Must include namespace if constructing from xpath!"
  else
    let elems := (((pySplit xpath '/').reverse.dropWhile (fun e => e = "")).reverse)
    .ok (pyJsonDumpsV (.obj ((nestChain elems JObj.nil).setKey "namespace" (.str ns))))

/-! ### ArgValidator: Client.__validate_enum_arg -/

/-- Client.__validate_enum_arg: no-op when the name is a member of the
allowed options, otherwise a ValueError whose message is the supplied one
when it is non-empty (Python truthiness) and otherwise lists the options. -/
def validateEnumArg (name : String) (validOptions : List String) (message : Option String) : Except String Unit :=
  if name ∈ validOptions then .ok ()
  else
    .error
      (match message with
       | none => name ++ " must be one of " ++ joinSep ", " validOptions
       | some m => if m = "" then name ++ " must be one of " ++ joinSep ", " validOptions else m)

/-! ### TargetResolver: Client.__gen_target and the urllib pieces it uses

The client parses targets with urllib urlparse and only consumes the
netloc, hostname and port of the result.  The model below transcribes the
CPython algorithm (urlsplit, and the _hostinfo/hostname/port properties of
the split result) for those pieces; params/query/fragment splitting that
happens after netloc extraction cannot influence them and is kept only as
the unparsed rest. -/

/-- Characters allowed in a URL scheme after the initial letter. -/
def schemeChar (c : Char) : Bool :=
  isAsciiAlpha c || isAsciiDigit c || c == '+' || c == '-' || c == '.'

/-- Result of urlsplit restricted to the fields the client reads. -/
structure SplitResult where
  scheme : List Char
  netloc : List Char
  rest : List Char
deriving DecidableEq, Repr

/-- The bracket sanity check urlsplit performs on a netloc: an opening
square bracket without a closing one (or vice versa) is rejected as an
invalid IPv6 URL. -/
def bracketBad (netloc : List Char) : Bool :=
  (netloc.contains '[' && !netloc.contains ']') || (netloc.contains ']' && !netloc.contains '[')

/-- The scheme detection step of urlsplit: when the text before the first
colon starts with a letter and consists of scheme characters, it is the
scheme (lowered) and is stripped together with the colon; otherwise the
scheme is empty and the url is unchanged. -/
def schemeSplit (url : List Char) : List Char × List Char :=
  match url.findIdx? (fun c => c == ':') with
  | some i =>
    if 0 < i ∧ isAsciiAlpha (url.headD ' ') = true ∧ (url.take i).all schemeChar = true
    then ((url.take i).map pyToLower, url.drop (i + 1))
    else ([], url)
  | none => ([], url)

/-- The _splitnetloc step of urlsplit: everything before the first slash,
question mark or hash sign. -/
def splitNetloc (url : List Char) : List Char :=
  url.takeWhile (fun c => !(c == '/' || c == '?' || c == '#'))

/-- urllib urlsplit, for the scheme/netloc part: strip a scheme, then if the
remainder starts with the double slash take everything up to the first
slash, question mark or hash sign as the netloc (raising on mismatched
square brackets); otherwise the netloc is empty. -/
def urlsplitE (url : List Char) : Except String SplitResult :=
  if startsWithL (schemeSplit url).2 ['/', '/'] then
    if bracketBad (splitNetloc ((schemeSplit url).2.drop 2)) then .error "Invalid IPv6 URL"
    else
      .ok ⟨(schemeSplit url).1, splitNetloc ((schemeSplit url).2.drop 2),
        ((schemeSplit url).2.drop 2).drop (splitNetloc ((schemeSplit url).2.drop 2)).length⟩
  else .ok ⟨(schemeSplit url).1, [], (schemeSplit url).2⟩

/-- The part of a netloc after the last at sign (whole netloc when there is
none): the rpartition step of the _hostinfo property. -/
def afterLastSep (sep : Char) (l : List Char) : List Char :=
  (l.reverse.takeWhile (fun c => !(c == sep))).reverse

/-- str.partition on the character level: split at the first occurrence of
the separator, or none when the separator does not occur. -/
def splitFirstSep (sep : Char) : List Char → Option (List Char × List Char)
  | [] => none
  | c :: rest =>
    if c == sep then some ([], rest)
    else
      match splitFirstSep sep rest with
      | none => none
      | some (a, b) => some (c :: a, b)

/-- The _hostinfo property of a split result: hostname text and optional
port text of a netloc.  Userinfo before the last at sign is dropped; a
bracketed host keeps the text inside the brackets and looks for the port
after the closing bracket; otherwise the netloc is split at its first
colon.  An empty port text counts as no port. -/
def hostinfoL (netloc : List Char) : List Char × Option (List Char) :=
  let hi := afterLastSep '@' netloc
  match splitFirstSep '[' hi with
  | some hb =>
    let hp : List Char × List Char :=
      match splitFirstSep ']' hb.2 with
      | some q => q
      | none => (hb.2, [])
    let port : List Char :=
      match splitFirstSep ':' hp.2 with
      | some q => q.2
      | none => []
    (hp.1, if port = [] then none else some port)
  | none =>
    match splitFirstSep ':' hi with
    | some hp => (hp.1, if hp.2 = [] then none else some hp.2)
    | none => (hi, none)

/-- The hostname property: the host text of the netloc, lowered, or none
when it is empty. -/
def hostnameOpt (netloc : List Char) : Option (List Char) :=
  let h := (hostinfoL netloc).1
  if h = [] then none else some (h.map pyToLower)

/-- Python int(text, 10): optional surrounding ASCII whitespace, an optional
sign, then decimal digits with single underscores allowed between digits. -/
def pyIntL (l : List Char) : Option Int :=
  let isWs : Char → Bool := fun c =>
    c == ' ' || c == '\t' || c == '\n' || c == '\x0b' || c == '\x0c' || c == '\r'
  let core := ((l.dropWhile isWs).reverse.dropWhile isWs).reverse
  match core with
  | '+' :: rest => (digitsU rest).map Int.ofNat
  | '-' :: rest => (digitsU rest).map (fun n => -(Int.ofNat n : Int))
  | _ => (digitsU core).map Int.ofNat
where
  digitsUAux : List Char → Nat → Option Nat
    | [], acc => some acc
    | c :: rest, acc =>
      if isAsciiDigit c then digitsUAux rest (acc * 10 + (c.toNat - 48))
      else if c == '_' then
        match rest with
        | d :: _ => if isAsciiDigit d then digitsUAux rest acc else none
        | [] => none
      else none
  digitsU : List Char → Option Nat
    | [] => none
    | l@(c :: _) => if isAsciiDigit c then digitsUAux l 0 else none

/-- The port property of a split result, on its netloc: none when no port
text is present, otherwise the text converted with int (a ValueError when
the conversion fails or the value is outside 0..65535). -/
def netlocPortE (netloc : List Char) : Except String (Option Nat) :=
  match (hostinfoL netloc).2 with
  | none => .ok none
  | some p =>
    match pyIntL p with
    | none => .error "Port could not be cast to integer value"
    | some n => if 0 ≤ n ∧ n ≤ 65535 then .ok (some n.toNat) else .error "Port out of range 0-65535"

/-- The netloc prefix constant of __gen_target. -/
def netlocPfxL : List Char := ['/', '/']

/-- The %s rendering of the optional hostname used when __gen_target
reassembles host and default port (None prints as the four letters None). -/
def hostnameFmt (netloc : List Char) : List Char :=
  match hostnameOpt netloc with
  | none => ['N', 'o', 'n', 'e']
  | some h => h

/-- Client.__gen_target on character lists.  Prepends the netloc prefix when
absent, parses, fails without a netloc, and when the parsed authority has no
port reassembles hostname:50051 (the default port, rendered by %i) and
resolves that string once more through a recursive call.  The Nat argument
is recursion fuel: the Python recursion reaches depth two at most (the
reassembled string either carries the literal injected port or fails to
parse), so any fuel of at least two is faithful. -/
def genTargetL : Nat → List Char → Except String (List Char)
  | 0, _ => .error "recursion fuel exhausted"
  | fuel + 1, target =>
    let target' := if containsL target netlocPfxL then target else netlocPfxL ++ target
    match urlsplitE target' with
    | .error e => .error e
    | .ok parsed =>
      if parsed.netloc = [] then .error "Unable to parse netloc from target URL!"
      else
        match netlocPortE parsed.netloc with
        | .error e => .error e
        | .ok none => genTargetL fuel (hostnameFmt parsed.netloc ++ ':' :: ['5', '0', '0', '5', '1'])
        | .ok (some _) => .ok parsed.netloc

/-- Client.__gen_target on strings. -/
def genTarget (target : String) : Except String String :=
  (genTargetL 3 target.data).map (fun l => String.mk l)

/-- The port the parsed (prefix-completed) target exposes, used to state
that a target already carries a port. -/
def targetPortE (t : String) : Except String (Option Nat) :=
  match urlsplitE (if containsL t.data netlocPfxL then t.data else netlocPfxL ++ t.data) with
  | .error e => .error e
  | .ok parsed => netlocPortE parsed.netloc

/-- Does the target already carry a port in its authority? -/
def targetHasPort (t : String) : Bool :=
  match targetPortE t with
  | .ok (some _) => true
  | _ => false

/-- Characters of an ordinary host name: ASCII letters and digits, dot,
hyphen and underscore. -/
def goodHostChar (c : Char) : Bool :=
  (48 ≤ c.toNat && c.toNat ≤ 57) || (65 ≤ c.toNat && c.toNat ≤ 90) ||
    (97 ≤ c.toNat && c.toNat ≤ 122) || c == '.' || c == '-' || c == '_'

/-- A valid port-free host string: non-empty and made of ordinary host name
characters (so in particular free of colons, slashes and brackets). -/
def SimpleHost (s : String) : Prop :=
  s.data ≠ [] ∧ ∀ c ∈ s.data, goodHostChar c = true

instance : DecidablePred SimpleHost := fun s => by
  unfold SimpleHost
  infer_instance

/-! ### Channels, stub, credentials, options and Client construction

grpc channel factories and the generated stub are external collaborators;
they are modelled as inert constructors recording exactly the arguments the
client hands them. -/

/-- grpc.ssl_channel_credentials applied to credential bytes. -/
inductive ChannelCred where
  | ssl : String → ChannelCred
deriving DecidableEq, Repr

/-- The two channel factories the client can invoke. -/
inductive Channel where
  | insecureChannel : String → Channel
  | secureChannel : String → ChannelCred → List (String × String) → Channel
deriving DecidableEq, Repr

/-- The generated gRPCConfigOperStub, bound to the channel it was built on. -/
structure Stub where
  channel : Channel
deriving DecidableEq, Repr

/-- Client.__gen_client: an insecure channel when the credentials are falsy
(absent or empty), otherwise a secure channel built from TLS channel
credentials and the options, with the stub bound to the chosen channel. -/
def genClient (target : String) (credentials : Option String) (options : List (String × String)) : Stub :=
  match credentials with
  | none => ⟨Channel.insecureChannel target⟩
  | some s =>
    if s = "" then ⟨Channel.insecureChannel target⟩
    else ⟨Channel.secureChannel target (ChannelCred.ssl s) options⟩

/-- Client.__gen_credentials: falsy input gives no credentials; otherwise
the PEM content, read through the supplied file system when the flag says
the input is a path.  The file system is a parameter standing in for the
open/read call, which is outside this module. -/
def genCredentials (fs : String → String) (credentials : Option String) (credentialsFromFile : Bool) : Option String :=
  match credentials with
  | none => none
  | some c =>
    if c = "" then none
    else some (if credentialsFromFile then fs c else c)

/-- Client.__gen_options: a single TLS server name override entry when one
is supplied (and truthy), otherwise no options. -/
def genOptions (tlsServerOverride : Option String) : List (String × String) :=
  match tlsServerOverride with
  | none => []
  | some s => if s = "" then [] else [("grpc.ssl_target_name_override", s)]

/-- The 32-bit C long maximum the client uses as its default (infinite)
timeout. -/
def cMaxLong : Int := 2147483647

/-- The Client record: the attributes Client.__init__ stores. -/
structure Client where
  username : String
  password : String
  timeout : Int
  target : String
  credentials : Option String
  options : List (String × String)
  stub : Stub
deriving DecidableEq, Repr

/-- Client.__init__: stores username, password and int(timeout) (the int
call on an integer is the identity and is modelled by the Int type of the
field), resolves the target, credentials and options, and builds the stub.
Only target resolution can fail. -/
def clientInit (fs : String → String) (target username password : String) (timeout : Int)
    (credentials : Option String) (credentialsFromFile : Bool) (tlsServerOverride : Option String) :
    Except String Client :=
  match genTarget target with
  | .error e => .error e
  | .ok tgt =>
    let creds := genCredentials fs credentials credentialsFromFile
    let opts := genOptions tlsServerOverride
    .ok
      { username := username
        password := password
        timeout := timeout
        target := tgt
        credentials := creds
        options := opts
        stub := genClient tgt creds opts }

/-- Client.__init__ with the timeout argument left at its default, the
32-bit C long maximum. -/
def clientInitDefault (fs : String → String) (target username password : String)
    (credentials : Option String) (credentialsFromFile : Bool) (tlsServerOverride : Option String) :
    Except String Client :=
  clientInit fs target username password cMaxLong credentials credentialsFromFile tlsServerOverride

/-! ### RequestDispatcher: metadata, __fulfill_request and the operations -/

/-- The RPC methods the generated stub exposes. -/
inductive RpcMethod where
  | GetOper | Get | GetConfig | EditConfig | StartSession | CloseSession | KillSession
deriving DecidableEq, Repr

/-- The protobuf argument bundles the client builds, one constructor per
proto args type, with the keyword arguments of the construction sites. -/
inductive RequestArgs where
  | getOperArgs (reqID : Int) (yangPath : String)
  | getArgs (reqID : Int) (yangPath : String)
  | getConfigArgs (reqID : Int) (source : String) (yangPath : String)
  | editConfigArgs (yangPath operation : String) (sessionID reqID : Int) (target defOp errorOp : String)
  | sessionArgs (reqID : Int)
  | closeSessionArgs (reqID sessionID : Int)
  | killArgs (reqID sessionID sessionIDToKill : Int)
deriving DecidableEq, Repr

/-- The ReqID attribute carried by every args bundle. -/
def RequestArgs.ReqID : RequestArgs → Int
  | .getOperArgs r _ => r
  | .getArgs r _ => r
  | .getConfigArgs r _ _ => r
  | .editConfigArgs _ _ _ r _ _ _ => r
  | .sessionArgs r => r
  | .closeSessionArgs r _ => r
  | .killArgs r _ _ => r

/-- Client.__gen_metadata: the username/password metadata pair list attached
to every call. -/
def genMetadata (c : Client) : List (String × String) :=
  [("username", c.username), ("password", c.password)]

/-- One RPC invocation as handed to the stub: the method, its args bundle,
and the timeout and metadata keyword arguments. -/
structure Dispatch where
  method : RpcMethod
  args : RequestArgs
  timeout : Int
  metadata : List (String × String)
deriving DecidableEq, Repr

/-- Client.__fulfill_request: invokes the request method with the args, the
configured timeout and the generated metadata, and hands the ReqID of the
args together with the raw reply to the external response builder, returning
its result.  The transport (the bound stub method) and the response builder
are parameters; the first component of the result records the invocation the
transport received. -/
def fulfillRequest {ρ σ : Type} (buildResponse : Int → ρ → σ) (transport : Dispatch → ρ)
    (c : Client) (m : RpcMethod) (a : RequestArgs) : Dispatch × σ :=
  let d : Dispatch := ⟨m, a, c.timeout, genMetadata c⟩
  (d, buildResponse a.ReqID (transport d))

/-- Client.get_oper: compiles the path unless it is already a payload, then
dispatches GetOper with GetOperArgs. -/
def getOper {ρ σ : Type} (buildResponse : Int → ρ → σ) (transport : Dispatch → ρ) (c : Client)
    (yangPath ns : String) (requestId : Int) (pathIsPayload : Bool) : Except String (Dispatch × σ) :=
  match (if pathIsPayload then Except.ok yangPath else parseXPathToJson yangPath ns) with
  | .error e => .error e
  | .ok yp => .ok (fulfillRequest buildResponse transport c .GetOper (.getOperArgs requestId yp))

/-- Client.get: compiles the path unless it is already a payload, then
dispatches Get with GetArgs. -/
def getReq {ρ σ : Type} (buildResponse : Int → ρ → σ) (transport : Dispatch → ρ) (c : Client)
    (yangPath ns : String) (requestId : Int) (pathIsPayload : Bool) : Except String (Dispatch × σ) :=
  match (if pathIsPayload then Except.ok yangPath else parseXPathToJson yangPath ns) with
  | .error e => .error e
  | .ok yp => .ok (fulfillRequest buildResponse transport c .Get (.getArgs requestId yp))

/-- The allowed sources of get_config. -/
def getConfigSources : List String := ["running"]

/-- Client.get_config: validates the source, compiles the path unless it is
already a payload, then dispatches GetConfig with GetConfigArgs. -/
def getConfig {ρ σ : Type} (buildResponse : Int → ρ → σ) (transport : Dispatch → ρ) (c : Client)
    (yangPath ns : String) (requestId : Int) (source : String) (pathIsPayload : Bool) :
    Except String (Dispatch × σ) :=
  match validateEnumArg source getConfigSources none with
  | .error e => .error e
  | .ok _ =>
    match (if pathIsPayload then Except.ok yangPath else parseXPathToJson yangPath ns) with
    | .error e => .error e
    | .ok yp => .ok (fulfillRequest buildResponse transport c .GetConfig (.getConfigArgs requestId source yp))

/-- The allowed operation values of edit_config. -/
def editOps : List String := ["merge", "create", "replace", "delete", "remove"]

/-- The allowed default operation values of edit_config. -/
def editDefaultOps : List String := ["merge", "replace", "none"]

/-- The allowed target datastores of edit_config. -/
def editTargets : List String := ["running"]

/-- The allowed error operation values of edit_config. -/
def editErrorOps : List String := ["roll-back", "stop", "continue"]

/-- Client.edit_config: validates operation, default operation, target and
error operation in that order, then dispatches EditConfig with
EditConfigArgs. -/
def editConfig {ρ σ : Type} (buildResponse : Int → ρ → σ) (transport : Dispatch → ρ) (c : Client)
    (yangPath operation defaultOperation : String) (sessionId requestId : Int)
    (target errorOperation : String) : Except String (Dispatch × σ) :=
  match validateEnumArg operation editOps none with
  | .error e => .error e
  | .ok _ =>
    match validateEnumArg defaultOperation editDefaultOps none with
    | .error e => .error e
    | .ok _ =>
      match validateEnumArg target editTargets none with
      | .error e => .error e
      | .ok _ =>
        match validateEnumArg errorOperation editErrorOps none with
        | .error e => .error e
        | .ok _ =>
          .ok (fulfillRequest buildResponse transport c .EditConfig
            (.editConfigArgs yangPath operation sessionId requestId target defaultOperation errorOperation))

/-- Client.start_session: dispatches StartSession with SessionArgs. -/
def startSession {ρ σ : Type} (buildResponse : Int → ρ → σ) (transport : Dispatch → ρ) (c : Client)
    (requestId : Int) : Except String (Dispatch × σ) :=
  .ok (fulfillRequest buildResponse transport c .StartSession (.sessionArgs requestId))

/-- Client.close_session: dispatches CloseSession with CloseSessionArgs. -/
def closeSession {ρ σ : Type} (buildResponse : Int → ρ → σ) (transport : Dispatch → ρ) (c : Client)
    (sessionId requestId : Int) : Except String (Dispatch × σ) :=
  .ok (fulfillRequest buildResponse transport c .CloseSession (.closeSessionArgs requestId sessionId))

/-- Client.kill_session: dispatches KillSession with KillArgs. -/
def killSession {ρ σ : Type} (buildResponse : Int → ρ → σ) (transport : Dispatch → ρ) (c : Client)
    (sessionId sessionIdToKill requestId : Int) : Except String (Dispatch × σ) :=
  .ok (fulfillRequest buildResponse transport c .KillSession (.killArgs requestId sessionId sessionIdToKill))

/-- A sample client value, the result of constructing against the loopback
target with default arguments (used to instantiate theorems at a concrete
client). -/
def demoClient : Client :=
  { username := "user"
    password := "pass"
    timeout := 2147483647
    target := "127.0.0.1:50051"
    credentials := none
    options := []
    stub := genClient "127.0.0.1:50051" none [] }

/-! ### List and character lemmas for the TargetResolver proofs -/

theorem startsWithL_nil_pat (l : List Char) : startsWithL l [] = true := by
  cases l <;> rfl

theorem containsL_slashslash_false (l : List Char) (h : ∀ c ∈ l, (c == '/') = false) :
    containsL l ['/', '/'] = false := by
  induction l with
  | nil => rfl
  | cons a rest ih =>
    have ha := h a (List.mem_cons_self a rest)
    simp [containsL, startsWithL, ha,
      ih (fun c hc => h c (List.mem_cons_of_mem a hc))]

theorem takeWhile_all {p : Char → Bool} {l : List Char} (h : ∀ c ∈ l, p c = true) :
    l.takeWhile p = l := by
  induction l with
  | nil => rfl
  | cons a rest ih =>
    rw [List.takeWhile_cons, if_pos (h a (List.mem_cons_self a rest))]
    rw [ih (fun c hc => h c (List.mem_cons_of_mem a hc))]

theorem contains_eq_false_of_all {l : List Char} {a : Char} (h : ∀ c ∈ l, (c == a) = false) :
    l.contains a = false := by
  have hm : a ∉ l := fun hmem => by simpa using h a hmem
  simp [hm]

/-- A good host character is none of the separator characters URL parsing
cares about (any character d with goodHostChar d = false). -/
theorem goodHostChar_ne {c d : Char} (h : goodHostChar c = true) (hd : goodHostChar d = false) :
    (c == d) = false := by
  by_cases hc : c = d
  · subst hc
    rw [h] at hd
    exact absurd hd (by simp)
  · exact beq_eq_false_iff_ne.mpr hc

theorem char_toNat_ofNat {n : Nat} (h : n < 55296) : (Char.ofNat n).toNat = n := by
  unfold Char.ofNat
  rw [dif_pos (Or.inl h)]
  rfl

/-- ASCII lowering keeps good host characters good. -/
theorem goodHostChar_pyToLower {c : Char} (h : goodHostChar c = true) :
    goodHostChar (pyToLower c) = true := by
  unfold pyToLower
  by_cases hu : 65 ≤ c.toNat ∧ c.toNat ≤ 90
  · rw [if_pos hu]
    have ht : (Char.ofNat (c.toNat + 32)).toNat = c.toNat + 32 :=
      char_toNat_ofNat (by omega)
    simp only [goodHostChar, ht, Bool.or_eq_true, Bool.and_eq_true, decide_eq_true_eq]
    refine Or.inl (Or.inl (Or.inl (Or.inr ⟨?_, ?_⟩))) <;> omega
  · rw [if_neg hu]
    exact h

/-- The scheme step leaves a url that starts with a slash unchanged: the
character before any colon cannot be a letter. -/
theorem schemeSplit_slash (rest : List Char) : schemeSplit ('/' :: rest) = ([], '/' :: rest) := by
  unfold schemeSplit
  split
  · rw [if_neg]
    rintro ⟨-, h2, -⟩
    rw [List.headD_cons] at h2
    exact absurd h2 (by decide)
  · rfl

theorem splitNetloc_eq_self {l : List Char}
    (h : ∀ c ∈ l, (c == '/') = false ∧ (c == '?') = false ∧ (c == '#') = false) :
    splitNetloc l = l := by
  apply takeWhile_all
  intro c hc
  obtain ⟨h1, h2, h3⟩ := h c hc
  simp [h1, h2, h3]

theorem splitNetloc_mem {l : List Char} {c : Char} (hc : c ∈ splitNetloc l) :
    (c == '/') = false ∧ (c == '?') = false ∧ (c == '#') = false := by
  have hp := List.mem_takeWhile_imp hc
  simp at hp
  obtain ⟨⟨h1, h2⟩, h3⟩ := hp
  exact ⟨by simp [h1], by simp [h2], by simp [h3]⟩

/-- urlsplit on a double slash followed by authority characters free of
slash, question mark and hash: the whole remainder is the netloc. -/
theorem urlsplitE_slashslash (N : List Char)
    (hall : ∀ c ∈ N, (c == '/') = false ∧ (c == '?') = false ∧ (c == '#') = false)
    (hbr : bracketBad N = false) :
    urlsplitE ('/' :: '/' :: N) = .ok ⟨[], N, []⟩ := by
  have hsch := schemeSplit_slash ('/' :: N)
  have hsw : startsWithL (schemeSplit ('/' :: '/' :: N)).2 ['/', '/'] = true := by
    rw [hsch]
    simp [startsWithL, startsWithL_nil_pat]
  have hdrop : (schemeSplit ('/' :: '/' :: N)).2.drop 2 = N := by rw [hsch]; rfl
  have hnl : splitNetloc ((schemeSplit ('/' :: '/' :: N)).2.drop 2) = N := by
    rw [hdrop]
    exact splitNetloc_eq_self hall
  unfold urlsplitE
  rw [if_pos hsw, hnl, hdrop]
  rw [if_neg (by rw [hbr]; simp)]
  rw [hsch]
  simp [List.drop_length]

/-- The netloc of any successful urlsplit is free of slash, question mark
and hash, and passes the bracket check. -/
theorem urlsplitE_netloc_shape {u : List Char} {r : SplitResult} (h : urlsplitE u = .ok r) :
    (∀ c ∈ r.netloc, (c == '/') = false ∧ (c == '?') = false ∧ (c == '#') = false) ∧
      bracketBad r.netloc = false := by
  unfold urlsplitE at h
  by_cases hsw : startsWithL (schemeSplit u).2 ['/', '/'] = true
  · rw [if_pos hsw] at h
    by_cases hbr : bracketBad (splitNetloc ((schemeSplit u).2.drop 2)) = true
    · rw [if_pos hbr] at h
      exact absurd h (by simp)
    · rw [if_neg hbr] at h
      have hr := (Except.ok.inj h).symm
      rw [hr]
      exact ⟨fun c hc => splitNetloc_mem hc, by simpa using hbr⟩
  · rw [if_neg hsw] at h
    have hr := (Except.ok.inj h).symm
    rw [hr]
    exact ⟨by simp, by simp [bracketBad]⟩

theorem afterLastSep_all {sep : Char} {l : List Char} (h : ∀ c ∈ l, (c == sep) = false) :
    afterLastSep sep l = l := by
  unfold afterLastSep
  rw [takeWhile_all (fun c hc => by simp [h c (List.mem_reverse.mp hc)])]
  exact List.reverse_reverse l

theorem splitFirstSep_none {sep : Char} {l : List Char} (h : ∀ c ∈ l, (c == sep) = false) :
    splitFirstSep sep l = none := by
  induction l with
  | nil => rfl
  | cons a rest ih =>
    rw [splitFirstSep]
    rw [if_neg (by rw [h a (List.mem_cons_self a rest)]; simp)]
    rw [ih (fun c hc => h c (List.mem_cons_of_mem a hc))]

theorem splitFirstSep_append {sep : Char} (a b : List Char) (h : ∀ c ∈ a, (c == sep) = false) :
    splitFirstSep sep (a ++ sep :: b) = some (a, b) := by
  induction a with
  | nil => simp [splitFirstSep]
  | cons x xs ih =>
    rw [List.cons_append, splitFirstSep]
    rw [if_neg (by rw [h x (List.mem_cons_self x xs)]; simp)]
    rw [ih (fun c hc => h c (List.mem_cons_of_mem x hc))]

/-- A netloc free of at sign, bracket and colon has no port and is its own
host text. -/
theorem hostinfoL_noport {N : List Char}
    (hat : ∀ c ∈ N, (c == '@') = false) (hbr : ∀ c ∈ N, (c == '[') = false)
    (hcol : ∀ c ∈ N, (c == ':') = false) :
    hostinfoL N = (N, none) := by
  simp only [hostinfoL]
  rw [afterLastSep_all hat, splitFirstSep_none hbr, splitFirstSep_none hcol]

/-- A netloc of the form host colon port, with a clean host and a non-empty
port, exposes exactly that host text and port text. -/
theorem hostinfoL_withport (hn port : List Char)
    (hat : ∀ c ∈ hn ++ ':' :: port, (c == '@') = false)
    (hbr : ∀ c ∈ hn ++ ':' :: port, (c == '[') = false)
    (hcol : ∀ c ∈ hn, (c == ':') = false)
    (hpne : port ≠ []) :
    hostinfoL (hn ++ ':' :: port) = (hn, some port) := by
  simp only [hostinfoL]
  rw [afterLastSep_all hat, splitFirstSep_none hbr, splitFirstSep_append hn port hcol]
  simp [hpne]

/-- Every character of a reassembled host colon default-port string is free
of the separators URL parsing reacts to. -/
theorem ported_clean (hn : List Char) (hgood : ∀ c ∈ hn, goodHostChar c = true) :
    ∀ c ∈ hn ++ ':' :: ['5', '0', '0', '5', '1'],
      (c == '/') = false ∧ (c == '?') = false ∧ (c == '#') = false ∧
        (c == '@') = false ∧ (c == '[') = false ∧ (c == ']') = false := by
  intro c hc
  rcases List.mem_append.mp hc with h | h
  · have hg := hgood c h
    exact ⟨goodHostChar_ne hg (by decide), goodHostChar_ne hg (by decide),
      goodHostChar_ne hg (by decide), goodHostChar_ne hg (by decide),
      goodHostChar_ne hg (by decide), goodHostChar_ne hg (by decide)⟩
  · simp only [List.mem_cons, List.mem_singleton] at h
    rcases h with rfl | rfl | rfl | rfl | rfl | rfl | h
    · exact ⟨rfl, rfl, rfl, rfl, rfl, rfl⟩
    · exact ⟨rfl, rfl, rfl, rfl, rfl, rfl⟩
    · exact ⟨rfl, rfl, rfl, rfl, rfl, rfl⟩
    · exact ⟨rfl, rfl, rfl, rfl, rfl, rfl⟩
    · exact ⟨rfl, rfl, rfl, rfl, rfl, rfl⟩
    · exact ⟨rfl, rfl, rfl, rfl, rfl, rfl⟩
    · exact absurd h (by simp)

/-- Resolving a clean host colon default-port string succeeds immediately
with the string itself: the injected port is found on this pass. -/
theorem genTargetL_hostport (fuel : Nat) (hn : List Char)
    (hclean : ∀ c ∈ hn ++ ':' :: ['5', '0', '0', '5', '1'],
      (c == '/') = false ∧ (c == '?') = false ∧ (c == '#') = false ∧
        (c == '@') = false ∧ (c == '[') = false ∧ (c == ']') = false)
    (hcol : ∀ c ∈ hn, (c == ':') = false) :
    genTargetL (fuel + 1) (hn ++ ':' :: ['5', '0', '0', '5', '1']) =
      .ok (hn ++ ':' :: ['5', '0', '0', '5', '1']) := by
  have hcont : containsL (hn ++ ':' :: ['5', '0', '0', '5', '1']) ['/', '/'] = false :=
    containsL_slashslash_false _ (fun c hc => (hclean c hc).1)
  have hbr : bracketBad (hn ++ ':' :: ['5', '0', '0', '5', '1']) = false := by
    have h1 : (hn ++ ':' :: ['5', '0', '0', '5', '1']).contains '[' = false :=
      contains_eq_false_of_all (fun c hc => (hclean c hc).2.2.2.2.1)
    have h2 : (hn ++ ':' :: ['5', '0', '0', '5', '1']).contains ']' = false :=
      contains_eq_false_of_all (fun c hc => (hclean c hc).2.2.2.2.2)
    unfold bracketBad
    rw [h1, h2]
    rfl
  have husl := urlsplitE_slashslash (hn ++ ':' :: ['5', '0', '0', '5', '1'])
    (fun c hc => ⟨(hclean c hc).1, (hclean c hc).2.1, (hclean c hc).2.2.1⟩) hbr
  have hhost := hostinfoL_withport hn ['5', '0', '0', '5', '1']
    (fun c hc => (hclean c hc).2.2.2.1) (fun c hc => (hclean c hc).2.2.2.2.1) hcol (by simp)
  have hport : netlocPortE (hn ++ ':' :: ['5', '0', '0', '5', '1']) = .ok (some 50051) := by
    unfold netlocPortE
    rw [hhost]
    rfl
  have hne : hn ++ ':' :: ['5', '0', '0', '5', '1'] ≠ [] := by simp
  simp only [genTargetL, netlocPfxL, hcont, Bool.false_eq_true, ite_false,
    List.cons_append, List.nil_append, husl, hport, if_neg hne]

/-- Resolving a bare simple host: the first pass finds no port, reassembles
the lowered hostname with the default port and the recursive pass returns
that string. -/
theorem genTargetL_simpleHost (hs : List Char) (hne : hs ≠ [])
    (hgood : ∀ c ∈ hs, goodHostChar c = true) :
    genTargetL 3 hs = .ok (hs.map pyToLower ++ ':' :: ['5', '0', '0', '5', '1']) := by
  have hsep : ∀ c ∈ hs, (c == '/') = false ∧ (c == '?') = false ∧ (c == '#') = false :=
    fun c hc => ⟨goodHostChar_ne (hgood c hc) (by decide), goodHostChar_ne (hgood c hc) (by decide),
      goodHostChar_ne (hgood c hc) (by decide)⟩
  have hcont := containsL_slashslash_false hs (fun c hc => (hsep c hc).1)
  have hbr : bracketBad hs = false := by
    have h1 : hs.contains '[' = false :=
      contains_eq_false_of_all (fun c hc => goodHostChar_ne (hgood c hc) (by decide))
    have h2 : hs.contains ']' = false :=
      contains_eq_false_of_all (fun c hc => goodHostChar_ne (hgood c hc) (by decide))
    unfold bracketBad
    rw [h1, h2]
    rfl
  have husl := urlsplitE_slashslash hs hsep hbr
  have hhost := hostinfoL_noport
    (fun c hc => goodHostChar_ne (hgood c hc) (by decide))
    (fun c hc => goodHostChar_ne (hgood c hc) (by decide))
    (fun c hc => goodHostChar_ne (hgood c hc) (by decide))
  have hport : netlocPortE hs = .ok none := by
    unfold netlocPortE
    rw [hhost]
  have hfmt : hostnameFmt hs = hs.map pyToLower := by
    unfold hostnameFmt hostnameOpt
    rw [hhost]
    simp [hne]
  have hgoodLow : ∀ c ∈ hs.map pyToLower, goodHostChar c = true := by
    intro c hc
    obtain ⟨a, ha, rfl⟩ := List.mem_map.mp hc
    exact goodHostChar_pyToLower (hgood a ha)
  have hcolLow : ∀ c ∈ hs.map pyToLower, (c == ':') = false :=
    fun c hc => goodHostChar_ne (hgoodLow c hc) (by decide)
  have hpass2 := genTargetL_hostport 1 (hs.map pyToLower) (ported_clean _ hgoodLow) hcolLow
  show genTargetL (2 + 1) hs = _
  simp only [genTargetL, netlocPfxL, hcont, Bool.false_eq_true, ite_false,
    List.cons_append, List.nil_append, husl, hport, if_neg hne, hfmt]
  exact hpass2

/-- A netloc that already carries a valid port resolves to itself in one
pass. -/
theorem genTargetL_netloc_fixed (N : List Char) (hne : N ≠ [])
    (hall : ∀ c ∈ N, (c == '/') = false ∧ (c == '?') = false ∧ (c == '#') = false)
    (hbr : bracketBad N = false) (p : Nat) (hport : netlocPortE N = .ok (some p)) :
    genTargetL 3 N = .ok N := by
  have hcont := containsL_slashslash_false N (fun c hc => (hall c hc).1)
  have husl := urlsplitE_slashslash N hall hbr
  show genTargetL (2 + 1) N = _
  simp only [genTargetL, netlocPfxL, hcont, Bool.false_eq_true, ite_false,
    List.cons_append, List.nil_append, husl, hport, if_neg hne]

/-- Every successful resolution outputs a fixed point: the output is a
netloc with a port, which resolves to itself. -/
theorem genTargetL_fix (fuel : Nat) :
    ∀ t s : List Char, genTargetL fuel t = .ok s → genTargetL 3 s = .ok s := by
  induction fuel with
  | zero =>
    intro t s h
    exact absurd h (by simp [genTargetL])
  | succ n ih =>
    intro t s h
    simp only [genTargetL] at h
    split at h
    · exact absurd h (by simp)
    · rename_i parsed heq
      split at h
      · exact absurd h (by simp)
      · rename_i hne
        split at h
        · exact absurd h (by simp)
        · exact ih _ s h
        · rename_i p hp
          have hs := Except.ok.inj h
          subst hs
          obtain ⟨hall, hbr⟩ := urlsplitE_netloc_shape heq
          exact genTargetL_netloc_fixed parsed.netloc hne hall hbr p hp

/-! ### Claim C3 -/

/-- C3: for every valid port-free host string, __gen_target returns the
lowered host with exactly one colon-separated port segment carrying the
default port 50051: the first pass parses no port, reassembles
hostname:50051, and the single recursive second pass parses the injected
port and returns that string. -/
theorem genTarget_default_port (h : String) (hsh : SimpleHost h) :
    genTarget h = .ok (String.mk (h.data.map pyToLower ++ ':' :: ['5', '0', '0', '5', '1'])) ∧
    (h.data.map pyToLower ++ ':' :: ['5', '0', '0', '5', '1']).count ':' = 1 ∧
    netlocPortE (h.data.map pyToLower ++ ':' :: ['5', '0', '0', '5', '1']) = .ok (some 50051) ∧
    genTargetL 2 (h.data.map pyToLower ++ ':' :: ['5', '0', '0', '5', '1']) =
      .ok (h.data.map pyToLower ++ ':' :: ['5', '0', '0', '5', '1']) := by
  obtain ⟨hne, hgood⟩ := hsh
  have hgoodLow : ∀ c ∈ h.data.map pyToLower, goodHostChar c = true := by
    intro c hc
    obtain ⟨a, ha, rfl⟩ := List.mem_map.mp hc
    exact goodHostChar_pyToLower (hgood a ha)
  have hcolLow : ∀ c ∈ h.data.map pyToLower, (c == ':') = false :=
    fun c hc => goodHostChar_ne (hgoodLow c hc) (by decide)
  have hclean := ported_clean _ hgoodLow
  refine ⟨?_, ?_, ?_, ?_⟩
  · unfold genTarget
    rw [genTargetL_simpleHost h.data hne hgood]
    rfl
  · rw [List.count_append]
    have hz : (h.data.map pyToLower).count ':' = 0 := by
      rw [List.count_eq_zero]
      intro hmem
      exact absurd (hgoodLow ':' hmem) (by decide)
    rw [hz]
    decide
  · have hhost := hostinfoL_withport (h.data.map pyToLower) ['5', '0', '0', '5', '1']
      (fun c hc => (hclean c hc).2.2.2.1) (fun c hc => (hclean c hc).2.2.2.2.1) hcolLow (by simp)
    unfold netlocPortE
    rw [hhost]
    rfl
  · exact genTargetL_hostport 1 _ hclean hcolLow

/-- Witness for C3 at a concrete host name without a port. -/
theorem genTarget_default_port_witness :
    SimpleHost "nxos.example.com" ∧
      genTarget "nxos.example.com" = .ok "nxos.example.com:50051" :=
  ⟨by decide, (genTarget_default_port "nxos.example.com" (by decide)).1⟩

/-! ### Claim C4 -/

/-- C4: for every host string that already carries a port and is accepted
by __gen_target, resolution is idempotent: the resolver maps its own output
to itself. -/
theorem genTarget_idempotent (t s : String) (h1 : genTarget t = .ok s)
    (_hport : targetHasPort t = true) : genTarget s = .ok s := by
  unfold genTarget at h1 ⊢
  cases hg : genTargetL 3 t.data with
  | error e =>
    rw [hg] at h1
    exact absurd h1 (by simp [Except.map])
  | ok l =>
    rw [hg] at h1
    have hs : String.mk l = s := by simpa [Except.map] using h1
    subst hs
    rw [show (String.mk l).data = l from rfl, genTargetL_fix 3 t.data l hg]
    rfl

/-- Witness for C4 at a concrete ported target. -/
theorem genTarget_idempotent_witness :
    genTarget "127.0.0.1:57400" = .ok "127.0.0.1:57400" ∧
      targetHasPort "127.0.0.1:57400" = true ∧
      genTarget "127.0.0.1:57400" = .ok "127.0.0.1:57400" :=
  ⟨rfl, rfl, genTarget_idempotent "127.0.0.1:57400" "127.0.0.1:57400" rfl rfl⟩

/-- str.split never returns an empty list of chunks. -/
theorem splitOnChar_ne_nil (sep : Char) (l : List Char) : splitOnChar sep l ≠ [] := by
  cases l with
  | nil => simp [splitOnChar]
  | cons c cs =>
    simp only [splitOnChar]
    split
    · simp
    · split <;> simp

theorem nestChain_append (a : List String) (e : String) (d : JObj) :
    nestChain (a ++ [e]) d = nestChain a (JObj.cons e (.obj d) .nil) := by
  induction a with
  | nil => rfl
  | cons x xs ih => simp [nestChain, ih]

theorem xpathRevFold_false (l : List String) (d : JObj) :
    xpathRevFold l d false = nestChain l.reverse d := by
  induction l generalizing d with
  | nil => rfl
  | cons e rest ih => simp [xpathRevFold, ih, List.reverse_cons, nestChain_append]

/-- The reverse fold of __parse_xpath_to_json builds exactly the forward
nesting of the element list: the first element is the outermost single key,
the last element maps to the empty object. -/
theorem xpathRevFold_true (m : List String) :
    xpathRevFold m JObj.nil true = nestChain m.reverse JObj.nil := by
  cases m with
  | nil => rfl
  | cons e rest =>
    show xpathRevFold rest (JObj.cons e (.obj .nil) .nil) false = _
    rw [xpathRevFold_false, List.reverse_cons, nestChain_append]

/-- Evaluation of the PathCompiler on any path once the namespace is
non-empty: the nested chain of split elements, with the namespace assigned
at top level, serialized. -/
theorem parseXPathToJson_ok (p ns : String) (h : ns ≠ "") :
    parseXPathToJson p ns =
      .ok (pyJsonDumpsV (.obj ((nestChain (pySplit p '/') JObj.nil).setKey "namespace" (.str ns)))) := by
  unfold parseXPathToJson parseXPathToJsonObj
  rw [if_neg h]
  have := xpathRevFold_true (pySplit p '/').reverse
  rw [List.reverse_reverse] at this
  simp [Except.map, this]

/-! ### Claim C1 -/

/-- C1 (amended): for every path and non-empty namespace,
__parse_xpath_to_json splits on the slash and serializes the chain in which
the first element is the outermost container, each element wraps its
successor as sole value, and the LAST element of the split -- empty or not --
maps to the empty object, with the namespace key set at top level; compiling
the path a/b/c with namespace ns1 yields the stated JSON string. -/
theorem parse_xpath_nested_chain (p ns : String) (h : ns ≠ "") :
    parseXPathToJson p ns =
      .ok (pyJsonDumpsV (.obj ((nestChain (pySplit p '/') JObj.nil).setKey "namespace" (.str ns)))) ∧
    parseXPathToJson "a/b/c" "ns1" =
      .ok "\x7b\"a\": \x7b\"b\": \x7b\"c\": \x7b\x7d\x7d\x7d, \"namespace\": \"ns1\"\x7d" :=
  ⟨parseXPathToJson_ok p ns h, rfl⟩

/-- Witness for C1 at the example input of the spec. -/
theorem parse_xpath_nested_chain_witness :
    ("ns1" : String) ≠ "" ∧
      parseXPathToJson "a/b/c" "ns1" =
        .ok "\x7b\"a\": \x7b\"b\": \x7b\"c\": \x7b\x7d\x7d\x7d, \"namespace\": \"ns1\"\x7d" :=
  ⟨by decide, (parse_xpath_nested_chain "a/b/c" "ns1" (by decide)).2⟩

/-- Counterexample for C1 as stated: on the path a/ (trailing slash) the
code maps the empty LAST element to the empty object and wraps it under a,
while the claim (last NON-empty element maps to the empty object) demands a
itself map to the empty object; the two JSON outputs differ. -/
theorem parse_xpath_nonempty_claim_false :
    parseXPathToJson "a/" "ns1" =
      .ok "\x7b\"a\": \x7b\"\": \x7b\x7d\x7d, \"namespace\": \"ns1\"\x7d" ∧
    specParseXPathToJson "a/" "ns1" =
      .ok "\x7b\"a\": \x7b\x7d, \"namespace\": \"ns1\"\x7d" ∧
    ("\x7b\"a\": \x7b\"\": \x7b\x7d\x7d, \"namespace\": \"ns1\"\x7d" : String) ≠
      "\x7b\"a\": \x7b\x7d, \"namespace\": \"ns1\"\x7d" :=
  ⟨rfl, rfl, by decide⟩

/-! ### Claim C2 -/

/-- C2: the PathCompiler fails exactly when the namespace is empty (the
Python falsy check covering an absent or empty namespace), and succeeds with
a JSON string for every path -- including the empty path -- otherwise. -/
theorem parse_xpath_fails_iff_no_namespace (p ns : String) :
    ((∃ s, parseXPathToJson p ns = .ok s) ↔ ns ≠ "") ∧
    (ns = "" → parseXPathToJson p ns = .error "Must include namespace if constructing from xpath!") := by
  constructor
  · constructor
    · rintro ⟨s, hs⟩ hns
      rw [hns] at hs
      simp [parseXPathToJson, parseXPathToJsonObj, Except.map] at hs
    · intro h
      exact ⟨_, parseXPathToJson_ok p ns h⟩
  · intro h
    rw [h]
    rfl

/-- Witness for C2: success on an empty path with a namespace, failure
without one. -/
theorem parse_xpath_fails_iff_no_namespace_witness :
    (∃ s, parseXPathToJson "" "ns1" = .ok s) ∧
      parseXPathToJson "Cisco-NX-OS-device:System" "" =
        .error "Must include namespace if constructing from xpath!" :=
  ⟨(parse_xpath_fails_iff_no_namespace "" "ns1").1.mpr (by decide),
    (parse_xpath_fails_iff_no_namespace "Cisco-NX-OS-device:System" "").2 rfl⟩

/-! ### Claim C10 -/

/-- C10: when the first slash-separated element of the path is the literal
namespace, the top-level namespace assignment overwrites the outermost
container entry, so the compiled JSON is exactly the object mapping
namespace to the namespace string, with no container hierarchy. -/
theorem parse_xpath_namespace_overwrite (p ns : String) (h : ns ≠ "")
    (hhead : (pySplit p '/').headD "" = "namespace") :
    parseXPathToJson p ns = .ok (pyJsonDumpsV (.obj (JObj.cons "namespace" (.str ns) .nil))) := by
  rw [parseXPathToJson_ok p ns h]
  cases hsplit : pySplit p '/' with
  | nil =>
    exfalso
    have hmap : (splitOnChar '/' p.data).map (fun l => String.mk l) = [] := hsplit
    rw [List.map_eq_nil_iff] at hmap
    exact splitOnChar_ne_nil '/' p.data hmap
  | cons e rest =>
    rw [hsplit] at hhead
    have he : e = "namespace" := by simpa using hhead
    subst he
    simp [nestChain, JObj.setKey]

/-- Witness for C10 at the single-element path namespace. -/
theorem parse_xpath_namespace_overwrite_witness :
    ("ns1" : String) ≠ "" ∧ (pySplit "namespace" '/').headD "" = "namespace" ∧
      parseXPathToJson "namespace" "ns1" = .ok "\x7b\"namespace\": \"ns1\"\x7d" :=
  ⟨by decide, by decide,
    parse_xpath_namespace_overwrite "namespace" "ns1" (by decide) (by decide)⟩

/-! ### Claim C5 -/

/-- C5 (amended): construction stores the supplied timeout unvalidated
(int of an integer), so no bound is enforced on it; when the timeout
argument is omitted the stored timeout is exactly 2147483647, the 32-bit
signed maximum, which is non-negative and equal to that upper bound. -/
theorem client_timeout_default (fs : String → String) (t u pw : String)
    (cr : Option String) (ff : Bool) (tls : Option String) :
    (∀ c, clientInitDefault fs t u pw cr ff tls = .ok c →
        c.timeout = 2147483647 ∧ 0 ≤ c.timeout ∧ c.timeout ≤ 2147483647) ∧
    (∀ tmo c, clientInit fs t u pw tmo cr ff tls = .ok c → c.timeout = tmo) := by
  constructor
  · intro c hc
    unfold clientInitDefault clientInit at hc
    cases hg : genTarget t with
    | error e => rw [hg] at hc; exact absurd hc (by simp)
    | ok tgt =>
      rw [hg] at hc
      cases hc
      refine ⟨rfl, ?_, ?_⟩
      · show (0 : Int) ≤ cMaxLong
        decide
      · show cMaxLong ≤ (2147483647 : Int)
        decide
  · intro tmo c hc
    unfold clientInit at hc
    cases hg : genTarget t with
    | error e => rw [hg] at hc; exact absurd hc (by simp)
    | ok tgt =>
      rw [hg] at hc
      cases hc
      rfl

/-- Witness for C5 at a concrete construction. -/
theorem client_timeout_default_witness :
    demoClient.timeout = 2147483647 ∧ 0 ≤ demoClient.timeout ∧ demoClient.timeout ≤ 2147483647 :=
  (client_timeout_default (fun _ => "") "127.0.0.1:50051" "user" "pass" none false none).1
    demoClient rfl

/-- Counterexample for C5 as stated: constructing with the timeout -1
succeeds and stores a negative timeout, so successfully constructed clients
are not bounded to non-negative values. -/
theorem client_timeout_bound_claim_false :
    (clientInit (fun _ => "") "127.0.0.1" "user" "pass" (-1) none false none).map Client.timeout
        = .ok (-1) ∧
    ¬ (0 : Int) ≤ -1 :=
  ⟨rfl, by decide⟩

/-! ### Claim C6 -/

/-- C6: the resolved credential bytes strictly determine the transport
branch of __gen_client: falsy credentials (absent or empty) give the
insecure channel, non-empty credentials give the secure channel built from
TLS channel credentials and the options, and every result is one of those
two forms. -/
theorem genClient_branch (target : String) (creds : Option String) (opts : List (String × String)) :
    ((creds = none ∨ creds = some "") → genClient target creds opts = ⟨Channel.insecureChannel target⟩) ∧
    (∀ s, creds = some s → s ≠ "" →
        genClient target creds opts = ⟨Channel.secureChannel target (ChannelCred.ssl s) opts⟩) ∧
    ((genClient target creds opts).channel = Channel.insecureChannel target ∨
      ∃ s, creds = some s ∧
        (genClient target creds opts).channel = Channel.secureChannel target (ChannelCred.ssl s) opts) := by
  refine ⟨?_, ?_, ?_⟩
  · rintro (h | h) <;> subst h <;> rfl
  · intro s hs hne
    subst hs
    simp [genClient, hne]
  · cases creds with
    | none => left; rfl
    | some s =>
      by_cases hs : s = ""
      · subst hs; left; rfl
      · right; exact ⟨s, rfl, by simp [genClient, hs]⟩

/-- Witness for C6: the insecure branch with absent credentials and the
secure branch with PEM bytes. -/
theorem genClient_branch_witness :
    genClient "127.0.0.1:50051" none [] = ⟨Channel.insecureChannel "127.0.0.1:50051"⟩ ∧
    genClient "127.0.0.1:50051" (some "PEM") [] =
      ⟨Channel.secureChannel "127.0.0.1:50051" (ChannelCred.ssl "PEM") []⟩ :=
  ⟨(genClient_branch "127.0.0.1:50051" none []).1 (Or.inl rfl),
    (genClient_branch "127.0.0.1:50051" (some "PEM") []).2.1 "PEM" rfl (by decide)⟩

/-! ### Claim C8 -/

/-- C8: __validate_enum_arg is a no-op exactly on members of the allowed
set, raises the descriptive default message for every non-member, and
membership is case sensitive: Running is rejected when only running is
allowed. -/
theorem validateEnumArg_spec (name : String) (opts : List String) (msg : Option String) :
    (validateEnumArg name opts msg = .ok () ↔ name ∈ opts) ∧
    (name ∉ opts →
      validateEnumArg name opts none = .error (name ++ " must be one of " ++ joinSep ", " opts)) ∧
    validateEnumArg "Running" ["running"] none = .error "Running must be one of running" := by
  refine ⟨⟨?_, ?_⟩, ?_, ?_⟩
  · intro h
    by_contra hmem
    simp [validateEnumArg, hmem] at h
  · intro h
    simp [validateEnumArg, h]
  · intro h
    simp [validateEnumArg, h]
  · rfl

/-- Witness for C8: acceptance of a member and rejection of the
case-mismatched candidate. -/
theorem validateEnumArg_spec_witness :
    validateEnumArg "running" ["running"] none = .ok () ∧
    ("Run" : String) ∉ (["running"] : List String) ∧
    validateEnumArg "Run" ["running"] none = .error "Run must be one of running" :=
  ⟨(validateEnumArg_spec "running" ["running"] none).1.mpr (by decide),
    by decide,
    (validateEnumArg_spec "Run" ["running"] none).2.1 (by decide)⟩

/-! ### Claim C7 -/

/-- C7: edit_config validates its four enumerated arguments before building
any request args bundle; when any of them is outside its allowed set the
call fails with a validation error whose value does not depend on the
transport (no call reaches it), and every successful call dispatched the
validated values. -/
theorem editConfig_validates {ρ σ : Type} (br : Int → ρ → σ) (tr tr2 : Dispatch → ρ) (c : Client)
    (yp op dop : String) (sid rid : Int) (tgt eop : String) :
    ((op ∉ editOps ∨ dop ∉ editDefaultOps ∨ tgt ∉ editTargets ∨ eop ∉ editErrorOps) →
      (∃ msg, editConfig br tr c yp op dop sid rid tgt eop = .error msg) ∧
      editConfig br tr c yp op dop sid rid tgt eop = editConfig br tr2 c yp op dop sid rid tgt eop) ∧
    (∀ d r, editConfig br tr c yp op dop sid rid tgt eop = .ok (d, r) →
      op ∈ editOps ∧ dop ∈ editDefaultOps ∧ tgt ∈ editTargets ∧ eop ∈ editErrorOps ∧
        d = ⟨.EditConfig, .editConfigArgs yp op sid rid tgt dop eop, c.timeout, genMetadata c⟩) := by
  by_cases h1 : op ∈ editOps <;> by_cases h2 : dop ∈ editDefaultOps <;>
    by_cases h3 : tgt ∈ editTargets <;> by_cases h4 : eop ∈ editErrorOps <;>
    simp [editConfig, validateEnumArg, h1, h2, h3, h4, fulfillRequest]

/-- Witness for C7: an invalid operation yields a validation error and a
transport-independent result; no dispatch value exists. -/
theorem editConfig_validates_witness :
    (("bogus" : String) ∉ editOps ∨ ("merge" : String) ∉ editDefaultOps ∨
      ("running" : String) ∉ editTargets ∨ ("roll-back" : String) ∉ editErrorOps) ∧
    ((∃ msg, editConfig (fun i (_ : Unit) => i) (fun _ => ()) demoClient
        "\x7b\x7d" "bogus" "merge" 0 0 "running" "roll-back" = .error msg) ∧
      editConfig (fun i (_ : Unit) => i) (fun _ => ()) demoClient
          "\x7b\x7d" "bogus" "merge" 0 0 "running" "roll-back" =
        editConfig (fun i (_ : Unit) => i) (fun _ => ()) demoClient
          "\x7b\x7d" "bogus" "merge" 0 0 "running" "roll-back") :=
  ⟨Or.inl (by decide),
    (editConfig_validates (fun i (_ : Unit) => i) (fun _ => ()) (fun _ => ()) demoClient
      "\x7b\x7d" "bogus" "merge" 0 0 "running" "roll-back").1 (Or.inl (by decide))⟩

/-! ### Claim C9 -/

/-- C9: every operation dispatches through __fulfill_request, which invokes
the RPC method with exactly the configured timeout and the
username/password metadata pair list, hands the ReqID of the args and the
raw reply to the external response builder and returns its result
unchanged; the compiled-path operations dispatch the PathCompiler output as
their args payload, with the request ids supplied by the caller. -/
theorem dispatch_uniform {ρ σ : Type} (br : Int → ρ → σ) (tr : Dispatch → ρ) (c : Client) :
    (∀ m a, fulfillRequest br tr c m a =
      (⟨m, a, c.timeout, [("username", c.username), ("password", c.password)]⟩,
        br a.ReqID (tr ⟨m, a, c.timeout, [("username", c.username), ("password", c.password)]⟩))) ∧
    (∀ path ns rid, ns ≠ "" → ∃ payload, parseXPathToJson path ns = .ok payload ∧
      getOper br tr c path ns rid false =
        .ok (fulfillRequest br tr c .GetOper (.getOperArgs rid payload)) ∧
      getReq br tr c path ns rid false =
        .ok (fulfillRequest br tr c .Get (.getArgs rid payload)) ∧
      getConfig br tr c path ns rid "running" false =
        .ok (fulfillRequest br tr c .GetConfig (.getConfigArgs rid "running" payload))) ∧
    (∀ yp op dop sid rid tgt eop,
      op ∈ editOps → dop ∈ editDefaultOps → tgt ∈ editTargets → eop ∈ editErrorOps →
      editConfig br tr c yp op dop sid rid tgt eop =
        .ok (fulfillRequest br tr c .EditConfig (.editConfigArgs yp op sid rid tgt dop eop))) ∧
    (∀ rid, startSession br tr c rid =
      .ok (fulfillRequest br tr c .StartSession (.sessionArgs rid))) ∧
    (∀ sid rid, closeSession br tr c sid rid =
      .ok (fulfillRequest br tr c .CloseSession (.closeSessionArgs rid sid))) ∧
    (∀ sid skill rid, killSession br tr c sid skill rid =
      .ok (fulfillRequest br tr c .KillSession (.killArgs rid sid skill))) := by
  refine ⟨fun m a => rfl, ?_, ?_, fun rid => rfl, fun sid rid => rfl, fun sid skill rid => rfl⟩
  · intro path ns rid hns
    refine ⟨_, parseXPathToJson_ok path ns hns, ?_, ?_, ?_⟩ <;>
      simp [getOper, getReq, getConfig, validateEnumArg, getConfigSources,
        parseXPathToJson_ok path ns hns]
  · intro yp op dop sid rid tgt eop h1 h2 h3 h4
    simp [editConfig, validateEnumArg, h1, h2, h3, h4]

/-- Witness for C9: with a one-element stub transport, get_oper on the
documented example path dispatches the PathCompiler output for that path
and namespace. -/
theorem dispatch_uniform_witness :
    ("http://example/ns" : String) ≠ "" ∧
    (∃ payload, parseXPathToJson "Cisco-NX-OS-device:System" "http://example/ns" = .ok payload ∧
      getOper (fun i (_ : Unit) => i) (fun _ => ()) demoClient
          "Cisco-NX-OS-device:System" "http://example/ns" 0 false =
        .ok (fulfillRequest (fun i (_ : Unit) => i) (fun _ => ()) demoClient
          .GetOper (.getOperArgs 0 payload)) ∧
      getReq (fun i (_ : Unit) => i) (fun _ => ()) demoClient
          "Cisco-NX-OS-device:System" "http://example/ns" 0 false =
        .ok (fulfillRequest (fun i (_ : Unit) => i) (fun _ => ()) demoClient
          .Get (.getArgs 0 payload)) ∧
      getConfig (fun i (_ : Unit) => i) (fun _ => ()) demoClient
          "Cisco-NX-OS-device:System" "http://example/ns" 0 "running" false =
        .ok (fulfillRequest (fun i (_ : Unit) => i) (fun _ => ()) demoClient
          .GetConfig (.getConfigArgs 0 "running" payload))) :=
  ⟨by decide,
    (dispatch_uniform (fun i (_ : Unit) => i) (fun _ => ()) demoClient).2.1
      "Cisco-NX-OS-device:System" "http://example/ns" 0 (by decide)⟩

end NxosGrpc
